import Mathlib

/-!
Verification development for the `My_Code` video-player repository.

The Python modules `cache_manager.py` and `api_service.py` are shallowly
embedded below.  Disk state is modelled as a partial map from paths to file
sizes; network behaviour (download outcomes, HTTP responses, per-attempt
results of the link-fetch loop) is passed in explicitly as data, so every
embedded operation is a pure, executable Lean function mirroring the
source line by line.
-/

namespace MyCode

/-! ## Filesystem model

A file system maps a path to `some size` when a file exists there and to
`none` otherwise.  `fsExists`/`fsSize` mirror `os.path.exists` /
`os.path.getsize` (the code only calls `getsize` under an `exists` guard,
so totalising it with default 0 is unobservable). -/

abbrev FS := String → Option Nat

def fsExists (fs : FS) (p : String) : Bool := (fs p).isSome

def fsSize (fs : FS) (p : String) : Nat := (fs p).getD 0

/-- Writing a file with `open(path, "wb")` followed by writing `n` bytes:
the file at `path` now exists with size `n` (creation or truncation). -/
def fsWrite (fs : FS) (p : String) (n : Nat) : FS :=
  fun q => if q = p then some n else fs q

/-- Effect of `os.remove(path)`: the file at `path` is gone. -/
def fsErase (fs : FS) (p : String) : FS :=
  fun q => if q = p then none else fs q

/-! ## CacheManager (src/cache_manager.py)

State of a `CacheManager` instance: configuration fields, the two deques
(`video_queue` = unplayed, `played_videos` = played, both front = oldest)
and the disk. -/

structure CMState where
  cache_dir : String
  max_cache : Nat
  max_uncached : Nat
  video_queue : List String
  played_videos : List String
  fs : FS

/-- Total number of tracked items: `get_cache_count` (cache_manager.py:177-179). -/
def get_cache_count (s : CMState) : Nat :=
  s.video_queue.length + s.played_videos.length

/-- All tracked paths, unplayed first. -/
def tracked (s : CMState) : List String :=
  s.video_queue ++ s.played_videos

/-- The local path generated in `cache_video` (cache_manager.py:52-54):
`os.path.join(cache_dir, f"video_{int(time.time())}.mp4")` with the POSIX
separator, where `t` is the wall-clock unix second at the call. -/
def cachePath (dir : String) (t : Nat) : String :=
  dir ++ "/video_" ++ toString t ++ ".mp4"

/-- One eviction loop of `clean_old_cache` (cache_manager.py:127-137 resp.
140-150): pop from the front while `need_to_clean > 0` and the deque is
non-empty, deleting the backing file when it exists; `need_to_clean` is
decremented once per popped record (line 135/148 runs whether or not the
file existed, and in this exception-free disk model `os.remove` always
succeeds).  Returns (remaining deque, disk, remaining `need_to_clean`). -/
def evictLoop : Nat → List String → FS → List String × FS × Nat
  | 0, l, fs => (l, fs, 0)
  | n + 1, [], fs => ([], fs, n + 1)
  | n + 1, p :: rest, fs => evictLoop n rest (fsErase fs p)

/-- `clean_old_cache` (cache_manager.py:116-152): when the total count
exceeds `max_cache`, evict `total - max_cache` records, preferring the
played deque (oldest first) and falling through to the unplayed deque. -/
def clean_old_cache (s : CMState) : CMState :=
  let total := s.video_queue.length + s.played_videos.length
  if total > s.max_cache then
    let r1 := evictLoop (total - s.max_cache) s.played_videos s.fs
    let r2 := evictLoop r1.2.2 s.video_queue r1.2.1
    { s with played_videos := r1.1, video_queue := r2.1, fs := r2.2.1 }
  else s

/-- Environment behaviour of the download performed by `cache_video`:
either the streaming loop completes having written `n` bytes, or a
`requests.exceptions.RequestException` resp. some other exception is
raised, in which case the file on disk holds `pb` bytes when `pb = some b`
(exception during streaming) and was never created when `pb = none`
(exception before `open`). -/
inductive DownloadResult where
  | ok (n : Nat)
  | requestError (pb : Option Nat)
  | otherError (pb : Option Nat)

/-- `cache_video` (cache_manager.py:46-114) at unix second `t` with
download behaviour `d`.  On a completed download the file exists at
`video_path` (the `wb` write created it), so the line-85 check reduces to
`size > 0`; a zero-byte result returns `None` without touching the file
(lines 94-96).  Both `except` clauses delete the partial file when it
exists and return `None` (lines 97-114). -/
def cache_video (s : CMState) (t : Nat) (d : DownloadResult) :
    CMState × Option String :=
  let video_path := cachePath s.cache_dir t
  match d with
  | .ok n =>
    let fs1 := fsWrite s.fs video_path n
    if fsExists fs1 video_path && fsSize fs1 video_path > 0 then
      let s1 := clean_old_cache
        { s with fs := fs1, video_queue := s.video_queue ++ [video_path] }
      (s1, some video_path)
    else
      ({ s with fs := fs1 }, none)
  | .requestError pb =>
    let fs1 := match pb with
      | some b => fsWrite s.fs video_path b
      | none => s.fs
    let fs2 := if fsExists fs1 video_path then fsErase fs1 video_path else fs1
    ({ s with fs := fs2 }, none)
  | .otherError pb =>
    let fs1 := match pb with
      | some b => fsWrite s.fs video_path b
      | none => s.fs
    let fs2 := if fsExists fs1 video_path then fsErase fs1 video_path else fs1
    ({ s with fs := fs2 }, none)

/-- The loop body of `get_next_video` (cache_manager.py:187-203): pop from
the unplayed deque until a path whose file exists with positive size is
found (append it to played, return it), skipping invalid entries; a
skipped entry whose file exists (hence has size 0) is deleted from disk.
Returns (unplayed, played, disk, result). -/
def gnvLoop : List String → List String → FS →
    List String × List String × FS × Option String
  | [], played, fs => ([], played, fs, none)
  | p :: rest, played, fs =>
    if fsExists fs p && fsSize fs p > 0 then
      (rest, played ++ [p], fs, some p)
    else
      let fs1 := if fsExists fs p then fsErase fs p else fs
      gnvLoop rest played fs1

/-- `get_next_video` (cache_manager.py:185-205). -/
def get_next_video (s : CMState) : CMState × Option String :=
  let r := gnvLoop s.video_queue s.played_videos s.fs
  ({ s with video_queue := r.1, played_videos := r.2.1, fs := r.2.2.1 },
   r.2.2.2)

/-- `remove_video` (cache_manager.py:207-228): remove the first occurrence
of `p` from whichever deque holds it and delete the backing file when it
exists; when `p` is tracked in neither deque only a warning is logged and
nothing changes. -/
def remove_video (s : CMState) (p : String) : CMState :=
  if p ∈ s.video_queue then
    { s with video_queue := s.video_queue.erase p,
             fs := if fsExists s.fs p then fsErase s.fs p else s.fs }
  else if p ∈ s.played_videos then
    { s with played_videos := s.played_videos.erase p,
             fs := if fsExists s.fs p then fsErase s.fs p else s.fs }
  else s

/-- `__init__` together with `_load_existing_cache`
(cache_manager.py:15-44): seed the unplayed deque with the `.mp4` files
found in the cache directory — passed in here as `files`, the directory
listing already sorted by ascending modification time, as
`os.listdir` + `sort(key=getmtime)` produces — joined to the directory,
then run `clean_old_cache` once. -/
def initCacheManager (cache_dir : String) (max_cache max_uncached : Nat)
    (files : List String) (fs : FS) : CMState :=
  clean_old_cache
    { cache_dir := cache_dir, max_cache := max_cache,
      max_uncached := max_uncached,
      video_queue := files.map (fun f => cache_dir ++ "/" ++ f),
      played_videos := [], fs := fs }

/-! Sequences of public cache operations, for the store-level invariant
claims: each `Op` is one call, with the environment data (wall-clock
second and download behaviour) an admit call consumes. -/

inductive Op where
  | admitOp (t : Nat) (d : DownloadResult)
  | takeNext
  | remove (p : String)

def stepOp (s : CMState) (op : Op) : CMState :=
  match op with
  | .admitOp t d => (cache_video s t d).1
  | .takeNext => (get_next_video s).1
  | .remove p => remove_video s p

def runOps (s : CMState) (ops : List Op) : CMState :=
  ops.foldl stepOp s

/-- An `admit` op is fresh in state `s` when the path it would generate is
not already tracked; other ops are unconstrained. -/
def opFresh (s : CMState) : Op → Bool
  | .admitOp t _ => !decide (cachePath s.cache_dir t ∈ tracked s)
  | _ => true

/-! ## APIService (src/api_service.py)

Mutable instance state of an `APIService` object; headers and the API key
play no role in the control flow modelled here. -/

structure APIState where
  api_urls : List String
  current_api_index : Nat
  max_retries : Nat
  fail_count : Nat
  switch_threshold : Nat

/-- `APIService.__init__` (api_service.py:15-37): two hard-coded endpoint
URLs, cursor 0, `switch_threshold = 2`. -/
def APIService.init (max_retries : Nat := 3) : APIState :=
  { api_urls := ["https://api.dwo.cc/api/miss?type=json",
                 "https://api.kuleu.com/api/xjj?type=json"],
    current_api_index := 0, max_retries := max_retries,
    fail_count := 0, switch_threshold := 2 }

/-- `_switch_api` (api_service.py:128-133): with more than one endpoint,
advance the cursor by one modulo the list length and reset `fail_count`. -/
def switch_api (s : APIState) : APIState :=
  if s.api_urls.length > 1 then
    { s with current_api_index := (s.current_api_index + 1) % s.api_urls.length,
             fail_count := 0 }
  else s

/-- Environment behaviour of one iteration of the `get_video_link` loop
(api_service.py:45-123): `ok u` = status 200 and a URL was extracted (from
JSON or from the text fallback) and redirect-resolved to `u`; `non200` =
request completed with a non-200 status; `noUrl` = status 200 but no URL
extractable (covering both the JSON path, line 74-77, and the
text-fallback path, line 92-95, which mutate the counters identically);
`connError` / `timeoutErr` / `otherError` = the three `except` clauses. -/
inductive Outcome where
  | ok (u : String)
  | non200
  | noUrl
  | connError
  | timeoutErr
  | otherError

/-- One iteration of the `get_video_link` `while` body acting on the
instance state.  On the failure paths inside the `try` block (non-200 and
no-URL) the `fail_count ≥ switch_threshold` check at line 102 runs; the
`except` clauses for connection and timeout errors increment `fail_count`
but return to the loop head without reaching that check, and the generic
`except` clause touches neither counter. -/
def gvlStep (s : APIState) (o : Outcome) : APIState × Option String :=
  match o with
  | .ok u => ({ s with fail_count := 0 }, some u)
  | .non200 | .noUrl =>
    let s1 := { s with fail_count := s.fail_count + 1 }
    let s2 := if s1.fail_count ≥ s1.switch_threshold then switch_api s1 else s1
    (s2, none)
  | .connError | .timeoutErr =>
    ({ s with fail_count := s.fail_count + 1 }, none)
  | .otherError => (s, none)

/-- The `while retries < max_retries` loop of `get_video_link`: `r` is the
remaining retry budget (every failure class increments `retries` exactly
once), and `os` supplies one environment outcome per attempt.  The
outcome list is exhausted only in runs given fewer outcomes than
attempts; the theorems below always supply enough. -/
def gvlRun : APIState → Nat → List Outcome → APIState × Option String
  | s, 0, _ => (s, none)
  | s, _ + 1, [] => (s, none)
  | s, r + 1, o :: rest =>
    match gvlStep s o with
    | (s1, some u) => (s1, some u)
    | (s1, none) => gvlRun s1 r rest

/-- `get_video_link` (api_service.py:39-126) driven by a list of
per-attempt environment outcomes; returns the final instance state and
the result. -/
def get_video_link (s : APIState) (os : List Outcome) :
    APIState × Option String :=
  gvlRun s s.max_retries os

/-! ## RedirectResolver (`follow_redirects`, api_service.py:184-215)

The web is modelled as a map from a URL to the (status code, `Location`
header) of the response to a `GET` with `allow_redirects=False`; the
`response.url` of such a response is the requested URL itself. -/

abbrev Web := String → Nat × Option String

def redirectCodes : List Nat := [301, 302, 303, 307, 308]

/-- The manual `while` loop (api_service.py:199-206) with `fuel` the
remaining allowance out of `max_redirects = 5`: while the last response
has a redirect status and the bound is not hit, follow the `Location`
header when present (requesting it without auto-follow), else break.
Returns the URL of the last request issued. -/
def redirectLoop (web : Web) : Nat → String → String
  | 0, u => u
  | fuel + 1, u =>
    if (web u).1 ∈ redirectCodes then
      match (web u).2 with
      | some v => redirectLoop web fuel v
      | none => u
    else u

/-- `follow_redirects` (api_service.py:184-215): run the loop from the
input URL with bound 5, then return the last reached URL when its status
is `< 400` and the original input URL otherwise. -/
def follow_redirects (web : Web) (url : String) : String :=
  let fin := redirectLoop web 5 url
  if (web fin).1 < 400 then fin else url

/-! ## UrlResolver (`_extract_video_url`, api_service.py:135-161)

Parsed JSON values, with objects and arrays as companion inductives so
that all recursions below are plainly structural. -/

mutual
inductive JVal where
  | str (s : String)
  | num (n : Int)
  | bool (b : Bool)
  | null
  | obj (fields : JFields)
  | arr (elems : JElems)
inductive JFields where
  | nil
  | cons (k : String) (v : JVal) (rest : JFields)
inductive JElems where
  | nil
  | cons (v : JVal) (rest : JElems)
end

mutual
/-- Python `repr` on parsed-JSON values, as `str` delegates to it for
containers: dicts print as `\x7b'k': v, ...\x7d`, lists as `[v, ...]`,
strings with single quotes (string content is assumed free of quotes and
escapes, which the claims' inputs satisfy), `True`/`False`/`None` for the
remaining scalars. -/
def pyRepr : JVal → String
  | .str s => "\x27" ++ s ++ "\x27"
  | .num n => toString n
  | .bool b => if b then "True" else "False"
  | .null => "None"
  | .obj fields => "\x7b" ++ pyReprFields fields ++ "\x7d"
  | .arr elems => "[" ++ pyReprElems elems ++ "]"
def pyReprFields : JFields → String
  | .nil => ""
  | .cons k v .nil => "\x27" ++ k ++ "\x27: " ++ pyRepr v
  | .cons k v (.cons k2 v2 rest) =>
    "\x27" ++ k ++ "\x27: " ++ pyRepr v ++ ", " ++
      pyReprFields (.cons k2 v2 rest)
def pyReprElems : JElems → String
  | .nil => ""
  | .cons v .nil => pyRepr v
  | .cons v (.cons v2 rest) => pyRepr v ++ ", " ++ pyReprElems (.cons v2 rest)
end

/-- Python `str` on parsed-JSON values: the identity on strings, `repr`
otherwise. -/
def pyStr : JVal → String
  | .str s => s
  | v => pyRepr v

/-- The whitespace set of Python `str.strip()` and of the regex `\s`
class (ASCII portion). -/
def pySpace (c : Char) : Bool :=
  c = ' ' || c = '\t' || c = '\n' || c = '\r' || c = '\x0b' || c = '\x0c'

/-- Python `str.strip()`: drop whitespace from both ends. -/
def pyStrip (s : String) : String :=
  ⟨((s.data.dropWhile pySpace).reverse.dropWhile pySpace).reverse⟩

def lookupField : JFields → String → Option JVal
  | .nil, _ => none
  | .cons k v rest, key => if k = key then some v else lookupField rest key

/-- Python `==` between a parsed-JSON element and a `str` key: true
exactly for an equal string. -/
def pyEqStrKey : JVal → String → Bool
  | .str s, k => s = k
  | _, _ => false

def elemsContainsKey : JElems → String → Bool
  | .nil, _ => false
  | .cons v rest, k => pyEqStrKey v k || elemsContainsKey rest k

/-- Contiguous-substring test, the semantics of Python `key in s` on
strings. -/
def pySubstr (needle : List Char) : List Char → Bool
  | [] => needle.isEmpty
  | c :: rest => needle.isPrefixOf (c :: rest) || pySubstr needle rest

/-- Python `key in video_data` for a `str` key: key-membership on a dict,
substring test on a str, element-membership on a list, and a `TypeError`
(modelled as `Except.error`) on the remaining scalars. -/
def pyContains (v : JVal) (key : String) : Except Unit Bool :=
  match v with
  | .obj fields => .ok (lookupField fields key).isSome
  | .str s => .ok (pySubstr key.data s.data)
  | .arr elems => .ok (elemsContainsKey elems key)
  | _ => .error ()

/-- Python `video_data[key]` for a `str` key: dict lookup (`KeyError`
when absent), `TypeError` on every other shape. -/
def pyGetItem (v : JVal) (key : String) : Except Unit JVal :=
  match v with
  | .obj fields =>
    match lookupField fields key with
    | some w => .ok w
    | none => .error ()
  | _ => .error ()

/-- The probe order of `_extract_video_url` (api_service.py:142 and 149). -/
def urlKeys : List String := ["data", "url", "video_url", "link", "src", "video"]

/-- The list branch of `_extract_video_url` (api_service.py:139-146): for
each key in order, if `key in video_data` then `str(video_data[key]).strip()`;
a non-empty result is returned, otherwise the loop continues.  No
recursion happens in this branch. -/
def extractFromFirst (video_data : JVal) : List String → Except Unit (Option String)
  | [] => .ok none
  | k :: ks =>
    match pyContains video_data k with
    | .error e => .error e
    | .ok true =>
      match pyGetItem video_data k with
      | .error e => .error e
      | .ok v =>
        let u := pyStrip (pyStr v)
        if u = "" then extractFromFirst video_data ks else .ok (some u)
    | .ok false => extractFromFirst video_data ks

/-- The dict branch of `_extract_video_url` (api_service.py:147-159): for
each key in order, when present and the value is a dict or list, recurse
via `deeper` (a truthy nested result is returned, otherwise the loop
continues to the next key); when present with any other value,
stringify-and-strip with the same non-empty test as the list branch. -/
def extractFromDict (deeper : JVal → Except Unit (Option String))
    (fields : JFields) : List String → Except Unit (Option String)
  | [] => .ok none
  | k :: ks =>
    match lookupField fields k with
    | none => extractFromDict deeper fields ks
    | some v =>
      match v with
      | .obj _ | .arr _ =>
        match deeper v with
        | .error e => .error e
        | .ok (some u) => .ok (some u)
        | .ok none => extractFromDict deeper fields ks
      | _ =>
        let u := pyStrip (pyStr v)
        if u = "" then extractFromDict deeper fields ks else .ok (some u)

/-- `_extract_video_url` (api_service.py:135-161).  `fuel` bounds the
recursion depth exactly as Python's recursion limit does; every theorem
below supplies fuel exceeding the nesting depth of its input.  A
non-empty list inspects its first element without recursing; a dict
probes `urlKeys` in order, recursing into dict/list values; every other
shape falls through to `return None`. -/
def extract_video_url : Nat → JVal → Except Unit (Option String)
  | 0, _ => .error ()
  | fuel + 1, data =>
    match data with
    | .arr (.cons v _) => extractFromFirst v urlKeys
    | .obj fields =>
      extractFromDict (fun v => extract_video_url fuel v) fields urlKeys
    | _ => .ok none

/-! ## Text-fallback extraction (`_extract_url_from_text`, api_service.py:163-182)

Executable models of the three regular expressions, with `re.findall`
scan semantics: try a match at each start position from the left, lazy
quantifiers prefer the shortest body.  Only the first match is needed
because the source reads `matches[0]`. -/

/-- The `https?://` head of all three patterns, with the greedy optional
`s`; returns the matched head and the remaining text. -/
def matchHttpHead : List Char → Option (String × List Char)
  | 'h' :: 't' :: 't' :: 'p' :: 's' :: ':' :: '/' :: '/' :: rest =>
    some ("https://", rest)
  | 'h' :: 't' :: 't' :: 'p' :: ':' :: '/' :: '/' :: rest =>
    some ("http://", rest)
  | _ => none

/-- The alternation `(mp4|mov|avi|mkv)`, alternatives tried in order;
returns the text captured by the group. -/
def matchVideoExt : List Char → Option String
  | 'm' :: 'p' :: '4' :: _ => some "mp4"
  | 'm' :: 'o' :: 'v' :: _ => some "mov"
  | 'a' :: 'v' :: 'i' :: _ => some "avi"
  | 'm' :: 'k' :: 'v' :: _ => some "mkv"
  | _ => none

/-- A character admitted by the body class `[^"\x27\s]` of the first
pattern. -/
def p1BodyChar (c : Char) : Bool :=
  !(c = '"' || c = '\x27' || pySpace c)

/-- The lazy tail `[^"\x27\s]+?\.(mp4|mov|avi|mkv)` of the first pattern:
`seen` records whether at least one body character has been consumed; at
the first position where `\.` followed by an extension can match (lazy
preference), succeed with the captured extension. -/
def extBodyScan : Bool → List Char → Option String
  | _, [] => none
  | seen, c :: rest =>
    if seen && c = '.' && (matchVideoExt rest).isSome then
      matchVideoExt rest
    else if p1BodyChar c then extBodyScan true rest
    else none

/-- Leftmost match of the first pattern
`https?://[^"\x27\s]+?\.(mp4|mov|avi|mkv)`; the value is the text of the
single capture group, which is what `re.findall` collects for a
one-group pattern. -/
def findExtGroup : List Char → Option String
  | [] => none
  | c :: rest =>
    match matchHttpHead (c :: rest) with
    | some r =>
      match extBodyScan false r.2 with
      | some ext => some ext
      | none => findExtGroup rest
    | none => findExtGroup rest

/-- The lazy tail `[^q]+?(?=q)` of the two quote-delimited patterns:
shortest non-empty run of non-`q` characters followed (without consuming
it) by `q`. -/
def quoteBodyScan (q : Char) : List Char → List Char → Option (List Char)
  | _, [] => none
  | acc, c :: rest =>
    if c = q then (if acc.isEmpty then none else some acc.reverse)
    else quoteBodyScan q (c :: acc) rest

/-- Leftmost match of `https?://[^q]+?(?=q)`; these patterns have no
group, so `re.findall` collects the full match text. -/
def findQuoteUrl (q : Char) : List Char → Option String
  | [] => none
  | c :: rest =>
    match matchHttpHead (c :: rest) with
    | some r =>
      match quoteBodyScan q [] r.2 with
      | some body => some (r.1 ++ String.mk body)
      | none => findQuoteUrl q rest
    | none => findQuoteUrl q rest

/-- `_extract_url_from_text` (api_service.py:163-182): the three patterns
are tried in order and the first one with any match wins.  For the first
pattern `re.findall` returns the capture-group strings (one group, hence
plain strings, not tuples — the `isinstance(matches[0], tuple)` branch is
dead), so `matches[0]` is the captured extension itself. -/
def extract_url_from_text (text : String) : Option String :=
  match findExtGroup text.data with
  | some g => some g
  | none =>
    match findQuoteUrl '"' text.data with
    | some u => some u
    | none => findQuoteUrl '\x27' text.data

/-- Validity test used by `get_next_video` (cache_manager.py:191): the
file exists and has positive size. -/
def validB (fs : FS) (p : String) : Bool :=
  fsExists fs p && decide (fsSize fs p > 0)

deriving instance DecidableEq for Except

/-- Example web used to witness the redirect-chain theorem: a 2-redirect
chain over `u`-URLs terminating in a 200, and a chain of more than 5
redirects over `w`-URLs. -/
def webEx : Web := fun u =>
  if u = "http://u0" then (302, some "http://u1")
  else if u = "http://u1" then (307, some "http://u2")
  else if u = "http://u2" then (200, none)
  else if u = "http://w0" then (302, some "http://w1")
  else if u = "http://w1" then (302, some "http://w2")
  else if u = "http://w2" then (303, some "http://w3")
  else if u = "http://w3" then (301, some "http://w4")
  else if u = "http://w4" then (308, some "http://w5")
  else if u = "http://w5" then (302, some "http://w6")
  else if u = "http://w6" then (302, some "http://w7")
  else (404, none)

def chainU (i : Nat) : String := "http://u" ++ toString i

def chainW (i : Nat) : String := "http://w" ++ toString i

/-- The store-level invariant of the CacheStore design: the tracked count
is bounded by `max_cache` and no path is tracked twice (in particular no
path sits in both deques). -/
def CMInv (s : CMState) : Prop :=
  get_cache_count s ≤ s.max_cache ∧ (tracked s).Nodup

instance : DecidablePred CMInv := fun s => by
  unfold CMInv; infer_instance

/-! ## Helper lemmas -/

theorem evictLoop_list (n : Nat) (l : List String) (fs : FS) :
    (evictLoop n l fs).1 = l.drop n := by
  induction n generalizing l fs with
  | zero => simp [evictLoop]
  | succ n ih =>
    cases l with
    | nil => simp [evictLoop]
    | cons p rest => simpa [evictLoop] using ih rest (fsErase fs p)

theorem evictLoop_need (n : Nat) (l : List String) (fs : FS) :
    (evictLoop n l fs).2.2 = n - l.length := by
  induction n generalizing l fs with
  | zero => simp [evictLoop]
  | succ n ih =>
    cases l with
    | nil => simp [evictLoop]
    | cons p rest => simpa [evictLoop] using ih rest (fsErase fs p)

theorem clean_old_cache_played (s : CMState) :
    (clean_old_cache s).played_videos =
      s.played_videos.drop (get_cache_count s - s.max_cache) := by
  simp only [clean_old_cache, get_cache_count]
  split
  · simp [evictLoop_list]
  · rename_i h
    have : s.video_queue.length + s.played_videos.length - s.max_cache = 0 := by
      omega
    simp [this]

theorem clean_old_cache_queue (s : CMState) :
    (clean_old_cache s).video_queue =
      s.video_queue.drop
        ((get_cache_count s - s.max_cache) - s.played_videos.length) := by
  simp only [clean_old_cache, get_cache_count]
  split
  · simp [evictLoop_list, evictLoop_need]
  · rename_i h
    have : s.video_queue.length + s.played_videos.length - s.max_cache = 0 := by
      omega
    simp [this]

theorem clean_old_cache_max (s : CMState) :
    (clean_old_cache s).max_cache = s.max_cache := by
  simp only [clean_old_cache]; split <;> rfl

theorem clean_old_cache_dir (s : CMState) :
    (clean_old_cache s).cache_dir = s.cache_dir := by
  simp only [clean_old_cache]; split <;> rfl

theorem clean_old_cache_count (s : CMState) :
    get_cache_count (clean_old_cache s) =
      min (get_cache_count s) s.max_cache := by
  have hq := clean_old_cache_queue s
  have hp := clean_old_cache_played s
  unfold get_cache_count at *
  rw [hq, hp]
  simp only [List.length_drop]
  omega

theorem clean_old_cache_nodup (s : CMState)
    (h : (tracked s).Nodup) : (tracked (clean_old_cache s)).Nodup := by
  have hq := clean_old_cache_queue s
  have hp := clean_old_cache_played s
  unfold tracked at *
  refine h.sublist ?_
  rw [hq, hp]
  exact (List.drop_sublist _ _).append (List.drop_sublist _ _)

/-- Skipping an invalid entry in `get_next_video` (deleting its zero-byte
file when it exists) changes no path's validity. -/
theorem validB_skip (fs : FS) (p : String) (h : validB fs p = false) :
    validB (if fsExists fs p then fsErase fs p else fs) = validB fs := by
  funext x
  by_cases hex : fsExists fs p = true
  · rw [if_pos hex]
    by_cases hxp : x = p
    · subst hxp
      have : fsExists (fsErase fs x) x = false := by
        simp [fsExists, fsErase]
      rw [validB, this, Bool.false_and, h]
    · have h1 : fsErase fs p x = fs x := by simp [fsErase, hxp]
      simp [validB, fsExists, fsSize, h1]
  · rw [if_neg hex]

theorem gnvLoop_spec (q : List String) (pl : List String) (fs : FS) :
    (gnvLoop q pl fs).2.2.2 = q.find? (validB fs) ∧
    (gnvLoop q pl fs).1 = (q.dropWhile (fun p => !validB fs p)).drop 1 ∧
    (gnvLoop q pl fs).2.1 = pl ++ (match q.find? (validB fs) with
      | some p => [p] | none => []) := by
  induction q generalizing pl fs with
  | nil => simp [gnvLoop]
  | cons p rest ih =>
    by_cases h : validB fs p = true
    · have hcond : (fsExists fs p && decide (fsSize fs p > 0)) = true := h
      simp [gnvLoop, hcond, List.find?, List.dropWhile, h]
    · have hcond : (fsExists fs p && decide (fsSize fs p > 0)) = false := by
        simpa [validB] using h
      have hskip := validB_skip fs p (by simpa [validB] using hcond)
      have ih1 := ih pl (if fsExists fs p then fsErase fs p else fs)
      rw [hskip] at ih1
      simp only [gnvLoop, hcond, Bool.false_eq_true, if_false]
      constructor
      · rw [ih1.1, List.find?]
        simp [hcond, validB]
      constructor
      · rw [ih1.2.1, List.dropWhile]
        simp [hcond, validB]
      · rw [ih1.2.2, List.find?]
        simp [hcond, validB]

theorem gnvLoop_count (q pl : List String) (fs : FS) :
    (gnvLoop q pl fs).1.length + (gnvLoop q pl fs).2.1.length ≤
      q.length + pl.length := by
  induction q generalizing pl fs with
  | nil => simp [gnvLoop]
  | cons p rest ih =>
    simp only [gnvLoop]
    split
    · simp; omega
    · have := ih pl (if fsExists fs p then fsErase fs p else fs)
      simp only [List.length_cons]
      omega

theorem gnvLoop_nodup (q pl : List String) (fs : FS)
    (h : (q ++ pl).Nodup) :
    ((gnvLoop q pl fs).1 ++ (gnvLoop q pl fs).2.1).Nodup := by
  induction q generalizing pl fs with
  | nil => simpa [gnvLoop] using h
  | cons p rest ih =>
    have h' : (p :: (rest ++ pl)).Nodup := by simpa using h
    simp only [gnvLoop]
    split
    · show (rest ++ (pl ++ [p])).Nodup
      have : rest ++ (pl ++ [p]) = (rest ++ pl) ++ p :: [] := by simp
      rw [this]
      exact List.nodup_middle.mpr (by simpa using h')
    · exact ih pl _ (List.nodup_cons.mp h').2

theorem remove_video_tracked_sublist (s : CMState) (p : String) :
    (tracked (remove_video s p)).Sublist (tracked s) := by
  unfold remove_video tracked
  split
  · exact (List.erase_sublist p s.video_queue).append (List.Sublist.refl _)
  · split
    · exact (List.Sublist.refl _).append (List.erase_sublist p s.played_videos)
    · exact List.Sublist.refl _

theorem stepOp_max_cache (s : CMState) (op : Op) :
    (stepOp s op).max_cache = s.max_cache := by
  cases op with
  | admitOp t d =>
    cases d with
    | ok n =>
      simp only [stepOp, cache_video]
      split
      · exact clean_old_cache_max _
      · rfl
    | requestError pb => rfl
    | otherError pb => rfl
  | takeNext => rfl
  | remove p =>
    simp only [stepOp, remove_video]
    split
    · rfl
    · split <;> rfl

theorem stepOp_count (s : CMState) (op : Op) :
    get_cache_count (stepOp s op) ≤ max (get_cache_count s) s.max_cache := by
  cases op with
  | admitOp t d =>
    cases d with
    | ok n =>
      simp only [stepOp, cache_video]
      split
      · have h := clean_old_cache_count
          { s with fs := fsWrite s.fs (cachePath s.cache_dir t) n,
                   video_queue := s.video_queue ++ [cachePath s.cache_dir t] }
        simp only [get_cache_count, List.length_append, List.length_cons,
          List.length_nil] at h ⊢
        omega
      · simp [get_cache_count]
    | requestError pb => simp [stepOp, cache_video, get_cache_count]
    | otherError pb => simp [stepOp, cache_video, get_cache_count]
  | takeNext =>
    have h := gnvLoop_count s.video_queue s.played_videos s.fs
    simp only [stepOp, get_next_video, get_cache_count] at *
    omega
  | remove p =>
    have h := (remove_video_tracked_sublist s p).length_le
    simp only [tracked, List.length_append] at h
    simp only [stepOp, get_cache_count]
    omega

theorem stepOp_nodup (s : CMState) (op : Op)
    (h : (tracked s).Nodup) (hf : opFresh s op = true) :
    (tracked (stepOp s op)).Nodup := by
  cases op with
  | admitOp t d =>
    have hp : cachePath s.cache_dir t ∉ tracked s := by
      simpa [opFresh] using hf
    cases d with
    | ok n =>
      simp only [stepOp, cache_video]
      split
      · apply clean_old_cache_nodup
        show ((s.video_queue ++ [cachePath s.cache_dir t]) ++
          s.played_videos).Nodup
        have heq : (s.video_queue ++ [cachePath s.cache_dir t]) ++
            s.played_videos =
            s.video_queue ++ cachePath s.cache_dir t :: s.played_videos := by
          simp
        rw [heq]
        exact List.nodup_middle.mpr (List.nodup_cons.mpr ⟨by
          simpa [tracked] using hp, h⟩)
      · exact h
    | requestError pb => exact h
    | otherError pb => exact h
  | takeNext => exact gnvLoop_nodup s.video_queue s.played_videos s.fs h
  | remove p => exact h.sublist (remove_video_tracked_sublist s p)

theorem stepOp_inv (s : CMState) (op : Op)
    (h : CMInv s) (hf : opFresh s op = true) : CMInv (stepOp s op) := by
  refine ⟨?_, stepOp_nodup s op h.2 hf⟩
  have h1 := stepOp_count s op
  have h2 := stepOp_max_cache s op
  have h3 := h.1
  omega

theorem runOps_inv (s : CMState) (ops : List Op) (h : CMInv s)
    (hf : ∀ j (hj : j < ops.length),
      opFresh (runOps s (ops.take j)) (ops.get ⟨j, hj⟩) = true) :
    CMInv (runOps s ops) := by
  induction ops generalizing s with
  | nil => exact h
  | cons op rest ih =>
    have h0 : opFresh s op = true := by
      simpa [runOps] using hf 0 (Nat.succ_pos rest.length)
    have hstep := stepOp_inv s op h h0
    have hf' : ∀ j (hj : j < rest.length),
        opFresh (runOps (stepOp s op) (rest.take j)) (rest.get ⟨j, hj⟩) = true := by
      intro j hj
      have := hf (j + 1) (by simpa using Nat.succ_lt_succ hj)
      simpa [runOps, List.take_succ_cons] using this
    exact ih (stepOp s op) hstep hf'

theorem runOps_max_cache (s : CMState) (ops : List Op) :
    (runOps s ops).max_cache = s.max_cache := by
  induction ops generalizing s with
  | nil => rfl
  | cons op rest ih =>
    show (runOps (stepOp s op) rest).max_cache = s.max_cache
    rw [ih (stepOp s op), stepOp_max_cache]

theorem initCacheManager_inv (dir : String) (mc mu : Nat)
    (files : List String) (fs : FS) (h : files.Nodup) :
    CMInv (initCacheManager dir mc mu files fs) := by
  constructor
  · have hc := clean_old_cache_count
      { cache_dir := dir, max_cache := mc, max_uncached := mu,
        video_queue := files.map (fun f => dir ++ "/" ++ f),
        played_videos := [], fs := fs }
    have hm := clean_old_cache_max
      { cache_dir := dir, max_cache := mc, max_uncached := mu,
        video_queue := files.map (fun f => dir ++ "/" ++ f),
        played_videos := [], fs := fs }
    unfold initCacheManager
    omega
  · apply clean_old_cache_nodup
    have hinj : Function.Injective (fun f => dir ++ "/" ++ f) := by
      intro a b hab
      have h2 := congrArg String.data hab
      simp only [String.data_append] at h2
      exact String.ext (List.append_cancel_left h2)
    simpa [tracked] using (h.map hinj)

theorem initCacheManager_max (dir : String) (mc mu : Nat)
    (files : List String) (fs : FS) :
    (initCacheManager dir mc mu files fs).max_cache = mc :=
  clean_old_cache_max _

theorem redirectLoop_exhaust (web : Web) :
    ∀ (F : Nat) (c : Nat → String),
      (∀ i < F, (web (c i)).1 ∈ redirectCodes ∧ (web (c i)).2 = some (c (i + 1))) →
      redirectLoop web F (c 0) = c F := by
  intro F
  induction F with
  | zero => intro c _; rfl
  | succ F ih =>
    intro c h
    have h0 := h 0 (Nat.succ_pos F)
    simp only [redirectLoop]
    rw [if_pos h0.1, h0.2]
    exact ih (fun i => c (i + 1)) (fun i hi => h (i + 1) (Nat.succ_lt_succ hi))

theorem redirectLoop_stop (web : Web) :
    ∀ (fuel N : Nat) (c : Nat → String), N ≤ fuel →
      (∀ i < N, (web (c i)).1 ∈ redirectCodes ∧ (web (c i)).2 = some (c (i + 1))) →
      (web (c N)).1 ∉ redirectCodes →
      redirectLoop web fuel (c 0) = c N := by
  intro fuel
  induction fuel with
  | zero =>
    intro N c hN h hstop
    have hz : N = 0 := Nat.le_zero.mp hN
    subst hz; rfl
  | succ fuel ih =>
    intro N c hN h hstop
    cases N with
    | zero =>
      simp only [redirectLoop]
      rw [if_neg hstop]
    | succ N =>
      have h0 := h 0 (Nat.succ_pos N)
      simp only [redirectLoop]
      rw [if_pos h0.1, h0.2]
      exact ih N (fun i => c (i + 1)) (Nat.le_of_succ_le_succ hN)
        (fun i hi => h (i + 1) (Nat.succ_lt_succ hi)) hstop

/-! ## Claim theorems -/

/-- C2 (amended): `cache_video` on a `RequestException` or any other
exception deletes the partial file (the path is absent afterwards), keeps
both queues unchanged and returns `None`; a download that completes with
zero bytes also returns `None`, but the zero-byte file is left on disk. -/
theorem cache_video_failure_cleanup (s : CMState) (t : Nat) (pb : Option Nat) :
    ((cache_video s t (.requestError pb)).2 = none ∧
      (cache_video s t (.requestError pb)).1.fs (cachePath s.cache_dir t) = none ∧
      (cache_video s t (.requestError pb)).1.video_queue = s.video_queue ∧
      (cache_video s t (.requestError pb)).1.played_videos = s.played_videos) ∧
    ((cache_video s t (.otherError pb)).2 = none ∧
      (cache_video s t (.otherError pb)).1.fs (cachePath s.cache_dir t) = none ∧
      (cache_video s t (.otherError pb)).1.video_queue = s.video_queue ∧
      (cache_video s t (.otherError pb)).1.played_videos = s.played_videos) ∧
    ((cache_video s t (.ok 0)).2 = none ∧
      (cache_video s t (.ok 0)).1.fs (cachePath s.cache_dir t) = some 0) := by
  refine ⟨⟨rfl, ?_, rfl, rfl⟩, ⟨rfl, ?_, rfl, rfl⟩, ⟨?_, ?_⟩⟩
  · simp only [cache_video]
    cases pb with
    | some b => simp [fsExists, fsWrite, fsErase]
    | none =>
      by_cases h : fsExists s.fs (cachePath s.cache_dir t) = true
      · simp [h, fsErase]
      · simp only [h, if_false]
        simpa [fsExists, Option.isNone_iff_eq_none] using
          Option.not_isSome_iff_eq_none.mp (by simpa [fsExists] using h)
  · simp only [cache_video]
    cases pb with
    | some b => simp [fsExists, fsWrite, fsErase]
    | none =>
      by_cases h : fsExists s.fs (cachePath s.cache_dir t) = true
      · simp [h, fsErase]
      · simp only [h, if_false]
        simpa [fsExists, Option.isNone_iff_eq_none] using
          Option.not_isSome_iff_eq_none.mp (by simpa [fsExists] using h)
  · simp [cache_video, fsExists, fsSize, fsWrite]
  · simp [cache_video, fsExists, fsSize, fsWrite]

/-- C2 (counterexample to the claim as stated): a download that completes
with zero bytes is a failed admit, yet the zero-byte partial file is left
on disk at the generated path. -/
theorem cache_video_zero_byte_left_behind :
    (cache_video ⟨"cache", 55, 10, [], [], fun _ => none⟩ 100 (.ok 0)).2 =
      none ∧
    (cache_video ⟨"cache", 55, 10, [], [], fun _ => none⟩ 100 (.ok 0)).1.fs
      "cache/video_100.mp4" = some 0 := by
  constructor
  · rfl
  · decide

/-- C4: the filename generated by `cache_video` depends only on the
wall-clock second `int(time.time())`, so two successful admits within the
same second return the very same local path (the second download
overwrites the first file, and the path is tracked twice). -/
theorem cache_video_timestamp_collision :
    (cache_video ⟨"cache", 55, 10, [], [], fun _ => none⟩ 100 (.ok 5)).2 =
      some "cache/video_100.mp4" ∧
    (cache_video
        (cache_video ⟨"cache", 55, 10, [], [], fun _ => none⟩ 100 (.ok 5)).1
        100 (.ok 7)).2 = some "cache/video_100.mp4" ∧
    (cache_video
        (cache_video ⟨"cache", 55, 10, [], [], fun _ => none⟩ 100 (.ok 5)).1
        100 (.ok 7)).1.video_queue =
      ["cache/video_100.mp4", "cache/video_100.mp4"] := by
  refine ⟨by decide, by decide, by decide⟩

/-- C5: `follow_redirects` on a redirect chain `c 0 → c 1 → ⋯` follows at
most 5 redirects: when the chain has `N ≤ 5` redirects and terminates in
a 200, it returns the final URL `c N`; when the chain is longer than 5
redirects it returns `c 5`, the URL reached at the bound — in both cases
`c (min N 5)` — never an error and (whenever the chain does not loop back)
not the original input URL. -/
theorem follow_redirects_chain (web : Web) (c : Nat → String) (N : Nat)
    (hchain : ∀ i < N,
      (web (c i)).1 ∈ redirectCodes ∧ (web (c i)).2 = some (c (i + 1)))
    (hterm : ((web (c N)).1 = 200 ∧ N ≤ 5) ∨ 6 ≤ N) :
    follow_redirects web (c 0) = c (min N 5) := by
  rcases hterm with ⟨h200, hN⟩ | hN
  · have hmin : min N 5 = N := Nat.min_eq_left hN
    rw [hmin]
    have hstop : (web (c N)).1 ∉ redirectCodes := by rw [h200]; decide
    have hloop := redirectLoop_stop web 5 N c hN hchain hstop
    simp only [follow_redirects]
    rw [hloop, if_pos (by rw [h200]; omega)]
  · have hmin : min N 5 = 5 := Nat.min_eq_right (by omega)
    rw [hmin]
    have hloop := redirectLoop_exhaust web 5 c
      (fun i hi => hchain i (by omega))
    have h5 := (hchain 5 (by omega)).1
    have hlt : (web (c 5)).1 < 400 := by
      simp only [redirectCodes, List.mem_cons, List.not_mem_nil,
        or_false] at h5
      rcases h5 with h | h | h | h | h <;> omega
    simp only [follow_redirects]
    rw [hloop, if_pos hlt]

/-- Witness for C5: on the concrete web `webEx`, the 2-redirect chain
ending in a 200 resolves to its final URL, and the 7-redirect chain
resolves to the URL reached after 5 redirects. -/
theorem follow_redirects_chain_witness :
    follow_redirects webEx (chainU 0) = chainU 2 ∧
    follow_redirects webEx (chainW 0) = chainW 5 := by
  constructor
  · have h := follow_redirects_chain webEx chainU 2
      (by decide) (Or.inl ⟨by decide, by decide⟩)
    simpa using h
  · have h := follow_redirects_chain webEx chainW 7
      (by decide) (Or.inr (by decide))
    simpa using h

/-- C7: on a text containing a URL that ends in a known video extension,
`_extract_url_from_text` returns only the text of the capture group — the
bare extension `"mp4"` — because `re.findall` on a one-group pattern
yields the group strings, not the full matches; it does not return the
full URL the claim (and the function's own intent) describes. -/
theorem extract_url_from_text_returns_extension :
    extract_url_from_text "<a href=\"http://cdn.example.com/v123.mp4\"></a>"
      = some "mp4" ∧
    (some "mp4" : Option String) ≠ some "http://cdn.example.com/v123.mp4" := by
  constructor
  · rfl
  · decide

/-- C9: eviction runs after every successful admit and, whenever the
total exceeds `max_cache`, drops the excess from the front (oldest first)
of the played deque, falling through to the front of the unplayed deque
only for the part the played deque cannot cover; in the concrete
scenario `max_cache = 3`, admitting 4 items with no plays in between
evicts exactly the oldest admitted item (its file is deleted from disk),
leaving the 3 most recent. -/
theorem eviction_order (s : CMState) :
    ((clean_old_cache s).played_videos =
        s.played_videos.drop (get_cache_count s - s.max_cache) ∧
      (clean_old_cache s).video_queue =
        s.video_queue.drop
          ((get_cache_count s - s.max_cache) - s.played_videos.length)) ∧
    ((runOps ⟨"cache", 3, 10, [], [], fun _ => none⟩
        [.admitOp 1 (.ok 9), .admitOp 2 (.ok 9), .admitOp 3 (.ok 9),
          .admitOp 4 (.ok 9)]).video_queue =
      ["cache/video_2.mp4", "cache/video_3.mp4", "cache/video_4.mp4"] ∧
      (runOps ⟨"cache", 3, 10, [], [], fun _ => none⟩
        [.admitOp 1 (.ok 9), .admitOp 2 (.ok 9), .admitOp 3 (.ok 9),
          .admitOp 4 (.ok 9)]).played_videos = [] ∧
      (runOps ⟨"cache", 3, 10, [], [], fun _ => none⟩
        [.admitOp 1 (.ok 9), .admitOp 2 (.ok 9), .admitOp 3 (.ok 9),
          .admitOp 4 (.ok 9)]).fs "cache/video_1.mp4" = none ∧
      (runOps ⟨"cache", 3, 10, [], [], fun _ => none⟩
        [.admitOp 1 (.ok 9), .admitOp 2 (.ok 9), .admitOp 3 (.ok 9),
          .admitOp 4 (.ok 9)]).fs "cache/video_2.mp4" = some 9) :=
  ⟨⟨clean_old_cache_played s, clean_old_cache_queue s⟩,
    by decide, by decide, by decide, by decide⟩

/-- C10: `remove_video` on a path tracked in neither deque is a complete
no-op — the state (both queues and the disk, even when a file exists at
that path) is returned unchanged; the source only logs a warning. -/
theorem remove_video_untracked_noop (s : CMState) (p : String)
    (h1 : p ∉ s.video_queue) (h2 : p ∉ s.played_videos) :
    remove_video s p = s := by
  simp [remove_video, h1, h2]

/-- Witness for C10 at a state that does have a file on disk at the
untracked path. -/
theorem remove_video_untracked_noop_witness :
    remove_video
      ⟨"cache", 55, 10, ["cache/a.mp4"], ["cache/b.mp4"],
        fun q => if q = "cache/x.mp4" then some 5 else none⟩
      "cache/x.mp4" =
      ⟨"cache", 55, 10, ["cache/a.mp4"], ["cache/b.mp4"],
        fun q => if q = "cache/x.mp4" then some 5 else none⟩ :=
  remove_video_untracked_noop _ _ (by decide) (by decide)

/-- C3 (counterexample to the claim as stated): three consecutive
connection-error failures inside one `get_video_link` call on the stock
two-endpoint configuration leave `current_api_index` at 0 and
`fail_count` at 3 — the rotation check (api_service.py:102) sits inside
the `try` block and is never reached from the `except` clauses, so for
this failure class no endpoint switch and no counter reset happen. -/
theorem no_rotation_on_connection_errors :
    (get_video_link (APIService.init 3)
        [.connError, .connError, .connError]).1.current_api_index = 0 ∧
    (get_video_link (APIService.init 3)
        [.connError, .connError, .connError]).1.fail_count = 3 ∧
    (get_video_link (APIService.init 3)
        [.connError, .connError, .connError]).2 = none :=
  ⟨by decide, by decide, by decide⟩

/-- C3 (amended): for the failure classes handled inside the `try` block
— non-200 status and no-URL-extractable — the threshold of 2 consecutive
failed attempts from a zeroed counter advances `current_api_index` by
exactly one modulo the endpoint count and resets `fail_count` to 0, both
across two loop iterations and within a full `get_video_link` call;
connection/timeout errors only increment the counter, deferring the
rotation check. -/
theorem endpoint_rotation_after_threshold (s : APIState) (o1 o2 : Outcome)
    (u : String) (hfc : s.fail_count = 0) (hthr : s.switch_threshold = 2)
    (hlen : 2 ≤ s.api_urls.length) (hmr : s.max_retries = 3)
    (h1 : o1 = .non200 ∨ o1 = .noUrl) (h2 : o2 = .non200 ∨ o2 = .noUrl) :
    (gvlStep (gvlStep s o1).1 o2).1.current_api_index =
        (s.current_api_index + 1) % s.api_urls.length ∧
    (gvlStep (gvlStep s o1).1 o2).1.fail_count = 0 ∧
    (get_video_link s [o1, o2, .ok u]).1.current_api_index =
        (s.current_api_index + 1) % s.api_urls.length := by
  have hgt : s.api_urls.length > 1 := by omega
  have hrun : (get_video_link s [o1, o2, .ok u]).1.current_api_index =
      (gvlStep (gvlStep s o1).1 o2).1.current_api_index := by
    rw [get_video_link, hmr]
    rcases h1 with rfl | rfl <;> rcases h2 with rfl | rfl <;> rfl
  rcases h1 with rfl | rfl <;> rcases h2 with rfl | rfl <;>
    refine ⟨?_, ?_, ?_⟩ <;>
    simp_all [gvlStep, switch_api, hfc, hthr, hgt]

/-- Witness for C3 (amended) on the stock configuration: a non-200
failure followed by a no-URL failure rotates from endpoint 0 to
endpoint 1 and clears the counter. -/
theorem endpoint_rotation_after_threshold_witness :
    (gvlStep (gvlStep (APIService.init 3) .non200).1 .noUrl).1.current_api_index
        = ((APIService.init 3).current_api_index + 1) %
          (APIService.init 3).api_urls.length ∧
    (gvlStep (gvlStep (APIService.init 3) .non200).1 .noUrl).1.fail_count = 0 ∧
    (get_video_link (APIService.init 3)
        [.non200, .noUrl, .ok "http://v"]).1.current_api_index =
      ((APIService.init 3).current_api_index + 1) %
        (APIService.init 3).api_urls.length :=
  endpoint_rotation_after_threshold (APIService.init 3) .non200 .noUrl
    "http://v" rfl rfl (by decide) rfl (Or.inl rfl) (Or.inr rfl)

/-- C6 (counterexample to the claim as stated): for a non-empty list body
whose first element carries a nested mapping under `data`,
`_extract_video_url` does not recurse — the list branch stringifies the
nested dict, returning its Python-repr text instead of the inner URL. -/
theorem extract_list_branch_no_recursion :
    extract_video_url 10
        (.arr (.cons (.obj (.cons "data" (.obj (.cons "url" (.str "X") .nil))
          (.cons "url" (.str "Y") .nil))) .nil)) =
      .ok (some "\x7b\x27url\x27: \x27X\x27\x7d") ∧
    (Except.ok (some "\x7b\x27url\x27: \x27X\x27\x7d") :
        Except Unit (Option String)) ≠ .ok (some "X") :=
  ⟨rfl, by decide⟩

/-- C6 (amended): `_extract_video_url` probes `data, url, video_url,
link, src, video` in that order; in the mapping case a value that is
itself a mapping or list is recursed into (a successful nested result is
returned, the spec's sibling key is never reached — for
`\x7b"data": \x7b"url": "X"\x7d, "url": "Y"\x7d` it returns `"X"`, never
`"Y"`), and a failed recursion moves on to the next key rather than
stringifying; only the non-empty-sequence case stringifies without
recursing. -/
theorem extract_dict_priority (fields g : JFields) (fuel : Nat) (u : String)
    (hdata : lookupField fields "data" = some (.obj g))
    (hrec : extract_video_url fuel (.obj g) = .ok (some u)) :
    extract_video_url (fuel + 1) (.obj fields) = .ok (some u) ∧
    extract_video_url 10 (.obj (.cons "data"
        (.obj (.cons "url" (.str "X") .nil)) (.cons "url" (.str "Y") .nil))) =
      .ok (some "X") ∧
    extract_video_url 10 (.obj (.cons "data" (.obj (.cons "zzz" (.num 1) .nil))
        (.cons "url" (.str "Y") .nil))) = .ok (some "Y") := by
  refine ⟨?_, rfl, rfl⟩
  simp only [extract_video_url, urlKeys, extractFromDict, hdata, hrec]

/-- Witness for C6 (amended) at the spec's own example input. -/
theorem extract_dict_priority_witness :
    extract_video_url 10 (.obj (.cons "data"
        (.obj (.cons "url" (.str "X") .nil)) (.cons "url" (.str "Y") .nil))) =
      .ok (some "X") ∧
    extract_video_url 10 (.obj (.cons "data"
        (.obj (.cons "url" (.str "X") .nil)) (.cons "url" (.str "Y") .nil))) =
      .ok (some "X") ∧
    extract_video_url 10 (.obj (.cons "data" (.obj (.cons "zzz" (.num 1) .nil))
        (.cons "url" (.str "Y") .nil))) = .ok (some "Y") :=
  extract_dict_priority
    (.cons "data" (.obj (.cons "url" (.str "X") .nil))
      (.cons "url" (.str "Y") .nil))
    (.cons "url" (.str "X") .nil) 9 "X" rfl rfl

/-- C8: `get_next_video` pops entries until the first one whose file
exists with positive size: it returns the oldest valid entry (every
stale record ahead of it is dropped from the deque), appends it to the
played deque, and returns `none` when no valid entry remains; being a
total function of the state, it cannot throw. -/
theorem get_next_video_spec (s : CMState) :
    (get_next_video s).2 = s.video_queue.find? (validB s.fs) ∧
    (get_next_video s).1.video_queue =
      (s.video_queue.dropWhile (fun p => !validB s.fs p)).drop 1 ∧
    (get_next_video s).1.played_videos = s.played_videos ++
      (match s.video_queue.find? (validB s.fs) with
        | some p => [p] | none => []) := by
  have h := gnvLoop_spec s.video_queue s.played_videos s.fs
  exact ⟨h.1, h.2.1, h.2.2⟩

/-- C1 (counterexample to the claim as stated): from a reconciled store
over an empty directory, admit at second 100, play that item, then admit
again during the same second: both admits succeed with the same generated
path, which afterwards is present in the unplayed and the played deque
simultaneously. -/
theorem store_invariant_violation :
    "cache/video_100.mp4" ∈
      (runOps (initCacheManager "cache" 55 10 [] (fun _ => none))
        [.admitOp 100 (.ok 5), .takeNext, .admitOp 100 (.ok 7)]).video_queue ∧
    "cache/video_100.mp4" ∈
      (runOps (initCacheManager "cache" 55 10 [] (fun _ => none))
        [.admitOp 100 (.ok 5), .takeNext, .admitOp 100 (.ok 7)]).played_videos :=
  ⟨by decide, by decide⟩

/-- C1 (amended): starting from a reconciled store (distinct directory
entries) and for every sequence of admit/takeNext/remove calls in which
no successful admit regenerates a path still tracked (distinct wall-clock
seconds suffice), every observation point — every prefix of the call
sequence — satisfies: the tracked count is at most `max_cache`, and no
path is tracked twice, in particular no path is in both deques at once. -/
theorem store_invariant (dir : String) (mc mu : Nat) (files : List String)
    (fs : FS) (ops : List Op) (k : Nat)
    (hnd : files.Nodup)
    (hfresh : ∀ j (hj : j < ops.length),
      opFresh (runOps (initCacheManager dir mc mu files fs) (ops.take j))
        (ops.get ⟨j, hj⟩) = true)
    (_hk : k ≤ ops.length) :
    get_cache_count
        (runOps (initCacheManager dir mc mu files fs) (ops.take k)) ≤ mc ∧
    (tracked (runOps (initCacheManager dir mc mu files fs)
      (ops.take k))).Nodup := by
  have hinv0 : CMInv (initCacheManager dir mc mu files fs) :=
    initCacheManager_inv dir mc mu files fs hnd
  have hf2 : ∀ j (hj : j < (ops.take k).length),
      opFresh (runOps (initCacheManager dir mc mu files fs)
        ((ops.take k).take j)) ((ops.take k).get ⟨j, hj⟩) = true := by
    intro j hj
    have hjk : j < k := lt_of_lt_of_le hj (by simp [List.length_take])
    have hjo : j < ops.length := by simp [List.length_take] at hj; omega
    have e1 : (ops.take k).take j = ops.take j := by
      rw [List.take_take, min_eq_left (Nat.le_of_lt hjk)]
    have e2 : (ops.take k).get ⟨j, hj⟩ = ops.get ⟨j, hjo⟩ := by
      simp [List.get_eq_getElem, List.getElem_take]
    rw [e1, e2]
    exact hfresh j hjo
  have hinv := runOps_inv (initCacheManager dir mc mu files fs)
    (ops.take k) hinv0 hf2
  refine ⟨?_, hinv.2⟩
  have hmax : (runOps (initCacheManager dir mc mu files fs)
      (ops.take k)).max_cache = mc := by
    rw [runOps_max_cache, initCacheManager_max]
  have h1 := hinv.1
  omega

/-- Witness for C1 (amended): a reconciled one-file store, one fresh
admit and one takeNext keep the invariant. -/
theorem store_invariant_witness :
    get_cache_count
        (runOps (initCacheManager "cache" 55 10 ["a.mp4"]
          (fun q => if q = "cache/a.mp4" then some 3 else none))
          ([Op.admitOp 1 (.ok 5), Op.takeNext].take 2)) ≤ 55 ∧
    (tracked (runOps (initCacheManager "cache" 55 10 ["a.mp4"]
      (fun q => if q = "cache/a.mp4" then some 3 else none))
      ([Op.admitOp 1 (.ok 5), Op.takeNext].take 2))).Nodup :=
  store_invariant "cache" 55 10 ["a.mp4"]
    (fun q => if q = "cache/a.mp4" then some 3 else none)
    [Op.admitOp 1 (.ok 5), Op.takeNext] 2 (by decide) (by decide) (by decide)

end MyCode
